import Mathlib

/-!
Verification of the PlayPatch gesture-driven synthesis engine.

The development shallowly embeds the pure helpers and the stateful
pointer-event handlers of the application (`App.tsx` variants, the
`RainbowField` ripple renderer and the `AuroraField` particle system)
as Lean definitions over `ℚ`, and proves the specified properties about
them.  Math.hypot is the one operation kept abstract (it is carried as a
function parameter in `Env`), since its exact value never matters to the
properties: only the accumulated-distance field it feeds is inspected.
-/

namespace PlayPatch

/-- `clamp` from `src/utils/math`, as used throughout the sources:
`Math.min(Math.max(value, min), max)`. -/
def clamp (value lo hi : ℚ) : ℚ := min (max value lo) hi

/-! ## Keyed maps

`Map<number, V>` is modelled as an association list where `setK`
replaces any existing binding for the key (the semantics of `Map.set`)
and `delK` removes the key (`Map.delete`). -/

/-- Association-list model of `Map<number, V>`. -/
abbrev KMap (α : Type) := List (ℕ × α)

/-- `Map.get`. -/
def getK {α : Type} : KMap α → ℕ → Option α
  | [], _ => none
  | p :: rest, k => if p.1 = k then some p.2 else getK rest k

/-- `Map.delete`. -/
def delK {α : Type} : KMap α → ℕ → KMap α
  | [], _ => []
  | p :: rest, k => if p.1 = k then delK rest k else p :: delK rest k

/-- `Map.set`: replace any binding for the key. -/
def setK {α : Type} (l : KMap α) (k : ℕ) (v : α) : KMap α := (k, v) :: delK l k

/-- Number of bindings a key has in the map. -/
def countK {α : Type} : KMap α → ℕ → ℕ
  | [], _ => 0
  | p :: rest, k => (if p.1 = k then 1 else 0) + countK rest k

/-- `Set.delete` on a `Set<number>` modelled as a list. -/
def remId : List ℕ → ℕ → List ℕ
  | [], _ => []
  | a :: rest, k => if a = k then remId rest k else a :: remId rest k

/-- `Set.add` on a `Set<number>` modelled as a list. -/
def addId (l : List ℕ) (k : ℕ) : List ℕ := if k ∈ l then l else k :: l

theorem getK_delK {α : Type} (l : KMap α) (k j : ℕ) :
    getK (delK l k) j = if j = k then none else getK l j := by
  induction l with
  | nil => simp [delK, getK]
  | cons p rest ih =>
    by_cases hpk : p.1 = k
    · rw [delK, if_pos hpk, ih]
      by_cases hjk : j = k
      · simp [hjk]
      · have hpj : ¬ p.1 = j := by rw [hpk]; exact fun h => hjk h.symm
        simp [getK, hpj, hjk]
    · rw [delK, if_neg hpk, getK]
      by_cases hpj : p.1 = j
      · have hjk : ¬ j = k := fun h => hpk (hpj.trans h)
        simp [getK, hpj, hjk]
      · rw [if_neg hpj, ih, getK, if_neg hpj]

theorem getK_setK {α : Type} (l : KMap α) (k j : ℕ) (v : α) :
    getK (setK l k v) j = if j = k then some v else getK l j := by
  by_cases hjk : j = k <;> simp [setK, getK, hjk, getK_delK]
  omega

theorem delK_eq_of_getK_none {α : Type} {l : KMap α} {k : ℕ}
    (h : getK l k = none) : delK l k = l := by
  induction l with
  | nil => simp [delK]
  | cons p rest ih =>
    by_cases hpk : p.1 = k
    · simp [getK, hpk] at h
    · simp [getK, hpk] at h
      simp [delK, hpk, ih h]

theorem countK_delK {α : Type} (l : KMap α) (k j : ℕ) :
    countK (delK l k) j = if j = k then 0 else countK l j := by
  induction l with
  | nil => simp [delK, countK]
  | cons p rest ih =>
    by_cases hpk : p.1 = k
    · rw [delK, if_pos hpk, ih]
      by_cases hjk : j = k
      · simp [hjk]
      · have hpj : ¬ p.1 = j := by rw [hpk]; exact fun h => hjk h.symm
        simp [countK, hpj, hjk]
    · rw [delK, if_neg hpk, countK, ih, countK]
      by_cases hjk : j = k
      · have hpj : ¬ p.1 = j := fun h => hpk (h.trans hjk)
        simp [hpj, hjk, hpk]
      · simp [hjk]

theorem countK_setK {α : Type} (l : KMap α) (k j : ℕ) (v : α) :
    countK (setK l k v) j = if j = k then 1 else countK l j := by
  by_cases hjk : j = k <;> simp [setK, countK, hjk, countK_delK]
  omega

theorem countK_delK_le {α : Type} (l : KMap α) (k j : ℕ) :
    countK (delK l k) j ≤ countK l j := by
  rw [countK_delK]
  split <;> simp

theorem not_mem_remId (l : List ℕ) (k : ℕ) : k ∉ remId l k := by
  induction l with
  | nil => simp [remId]
  | cons a rest ih =>
    by_cases hak : a = k <;> simp [remId, hak, ih]
    omega

theorem remId_eq_of_not_mem {l : List ℕ} {k : ℕ} (h : k ∉ l) : remId l k = l := by
  induction l with
  | nil => simp [remId]
  | cons a rest ih =>
    simp only [List.mem_cons, not_or] at h
    have hak : ¬ a = k := fun he => h.1 he.symm
    simp [remId, hak, ih h.2]

/-! ## Scale / gain / pan mappers (`App.tsx`, part 002 / part 003) -/

/-- `PENTATONIC_FREQUENCIES`: a bright pentatonic scale over two octaves. -/
def PENTATONIC_FREQUENCIES : List ℚ :=
  [26163/100, 29366/100, 32963/100, 392, 440, 52325/100, 58733/100, 65925/100, 78399/100, 880]

/-- Table lookup `PENTATONIC_FREQUENCIES[i]`. -/
def penta (i : ℕ) : ℚ := PENTATONIC_FREQUENCIES.getD i 0

/-- The interpolation core of `getFrequencyForPosition`: `position` is the
already clamped, scaled index `clamp(x/width,0,1) * (N-1)`. -/
def interpPenta (position : ℚ) : ℚ :=
  penta (⌊position⌋).toNat +
    (penta (min (max (⌊position⌋ + 1) 0) 9).toNat - penta (⌊position⌋).toNat) *
      (position - ((⌊position⌋ : ℤ) : ℚ))

/-- `getFrequencyForPosition` from `App.tsx`. -/
def getFrequencyForPosition (x width : ℚ) : ℚ :=
  if width ≤ 0 then penta 0
  else interpPenta (clamp (x / width) 0 1 * 9)

/-- `getGainForPosition`, the variant clamping at `0.68` (part 002). -/
def getGainForPosition (y height : ℚ) : ℚ :=
  if height ≤ 0 then 45/100
  else clamp (18/100 + (1 - clamp (y / height) 0 1) * (1/2)) (12/100) (68/100)

/-- `getGainForPosition`, the grid variant clamping at `0.7` (part 003). -/
def getGainForPositionGrid (y height : ℚ) : ℚ :=
  if height ≤ 0 then 45/100
  else clamp (18/100 + (1 - clamp (y / height) 0 1) * (1/2)) (12/100) (7/10)

/-- `getPanForPosition` from `App.tsx` (part 002). -/
def getPanForPosition (x width : ℚ) : ℚ :=
  if width ≤ 0 then 0
  else clamp ((x / width) * 2 - 1) (-1) 1

/-! ### Facts about the pentatonic interpolation -/

theorem penta_step : ∀ m : Fin 9, penta m.1 ≤ penta (m.1 + 1) := by
  intro m
  fin_cases m <;> norm_num [penta, PENTATONIC_FREQUENCIES]

theorem penta_mono {i j : ℕ} (hij : i ≤ j) (hj : j ≤ 9) : penta i ≤ penta j := by
  induction hij with
  | refl => exact le_refl _
  | @step m hm ih =>
    have hm9 : m ≤ 9 := Nat.le_of_succ_le hj
    have hm8 : m < 9 := Nat.lt_of_succ_le hj
    exact le_trans (ih hm9) (penta_step ⟨m, hm8⟩)

theorem interpPenta_int (k : ℕ) : interpPenta (k : ℚ) = penta k := by
  unfold interpPenta
  rw [Int.floor_natCast]
  simp

theorem interpPenta_eval (k : ℕ) (p : ℚ) (hk : k ≤ 8) (h1 : (k : ℚ) ≤ p)
    (h2 : p < (k : ℚ) + 1) :
    interpPenta p = penta k + (penta (k + 1) - penta k) * (p - (k : ℚ)) := by
  have hfloor : ⌊p⌋ = (k : ℤ) := by
    rw [Int.floor_eq_iff]
    exact ⟨by exact_mod_cast h1, by push_cast; exact h2⟩
  unfold interpPenta
  rw [hfloor]
  have hmax : max ((k : ℤ) + 1) 0 = (k : ℤ) + 1 := max_eq_left (by positivity)
  have hmin : min ((k : ℤ) + 1) 9 = (k : ℤ) + 1 := min_eq_left (by exact_mod_cast Nat.succ_le_succ hk)
  rw [hmax, hmin]
  have h1' : ((k : ℤ) + 1).toNat = k + 1 := by omega
  have h2' : ((k : ℤ)).toNat = k := by omega
  rw [h1', h2']
  norm_num

theorem interpPenta_ge_base (k : ℕ) (p : ℚ) (hk : k ≤ 8) (h1 : (k : ℚ) ≤ p)
    (h2 : p < (k : ℚ) + 1) : penta k ≤ interpPenta p := by
  rw [interpPenta_eval k p hk h1 h2]
  have hs : 0 ≤ penta (k + 1) - penta k :=
    sub_nonneg.mpr (penta_mono (Nat.le_succ k) (Nat.succ_le_succ hk))
  nlinarith [mul_nonneg hs (sub_nonneg.mpr h1)]

theorem interpPenta_le_next (k : ℕ) (p : ℚ) (hk : k ≤ 8) (h1 : (k : ℚ) ≤ p)
    (h2 : p < (k : ℚ) + 1) : interpPenta p ≤ penta (k + 1) := by
  rw [interpPenta_eval k p hk h1 h2]
  have hs : 0 ≤ penta (k + 1) - penta k :=
    sub_nonneg.mpr (penta_mono (Nat.le_succ k) (Nat.succ_le_succ hk))
  have hfrac : p - (k : ℚ) ≤ 1 := by linarith
  nlinarith [mul_le_mul_of_nonneg_left hfrac hs]

theorem interpPenta_mono {p q : ℚ} (hp : 0 ≤ p) (hpq : p ≤ q) (hq : q ≤ 9) :
    interpPenta p ≤ interpPenta q := by
  have hq9 : ⌊q⌋ ≤ 9 := by
    have : ⌊q⌋ ≤ ⌊(9 : ℚ)⌋ := Int.floor_le_floor hq
    simpa using this
  have hp0 : 0 ≤ ⌊p⌋ := Int.floor_nonneg.mpr hp
  have hab : ⌊p⌋ ≤ ⌊q⌋ := Int.floor_le_floor hpq
  have hfp_le : ((⌊p⌋ : ℚ)) ≤ p := Int.floor_le p
  have hfp_lt : p < (⌊p⌋ : ℚ) + 1 := Int.lt_floor_add_one p
  have hfq_le : ((⌊q⌋ : ℚ)) ≤ q := Int.floor_le q
  have hfq_lt : q < (⌊q⌋ : ℚ) + 1 := Int.lt_floor_add_one q
  rcases eq_or_lt_of_le hab with hab' | hab'
  · -- same floor
    by_cases hb9 : ⌊q⌋ = 9
    · -- then p = q = 9
      have h9p : (9 : ℚ) ≤ p := by
        rw [hab', hb9] at hfp_le
        exact_mod_cast hfp_le
      have : p = q := le_antisymm hpq (le_trans hq h9p)
      rw [this]
    · have hb8 : ⌊q⌋ ≤ 8 := by omega
      set n := (⌊q⌋).toNat with hn
      have hnc : ((n : ℤ)) = ⌊q⌋ := Int.toNat_of_nonneg (le_trans hp0 hab)
      have hncq : ((n : ℚ)) = ((⌊q⌋ : ℤ) : ℚ) := by exact_mod_cast hnc
      have hn8 : n ≤ 8 := by omega
      have e1 := interpPenta_eval n p hn8 (by rw [hncq, ← hab']; exact hfp_le)
        (by rw [hncq, ← hab']; exact hfp_lt)
      have e2 := interpPenta_eval n q hn8 (by rw [hncq]; exact hfq_le)
        (by rw [hncq]; exact hfq_lt)
      rw [e1, e2]
      have hs : 0 ≤ penta (n + 1) - penta n :=
        sub_nonneg.mpr (penta_mono (Nat.le_succ n) (Nat.succ_le_succ hn8))
      nlinarith [mul_le_mul_of_nonneg_left (sub_le_sub_right hpq (n : ℚ)) hs]
  · -- strictly smaller floor
    set na := (⌊p⌋).toNat with hna
    set nb := (⌊q⌋).toNat with hnb
    have hnac : ((na : ℤ)) = ⌊p⌋ := Int.toNat_of_nonneg hp0
    have hnbc : ((nb : ℤ)) = ⌊q⌋ := Int.toNat_of_nonneg (le_trans hp0 hab)
    have hnaq : ((na : ℚ)) = ((⌊p⌋ : ℤ) : ℚ) := by exact_mod_cast hnac
    have hnbq : ((nb : ℚ)) = ((⌊q⌋ : ℤ) : ℚ) := by exact_mod_cast hnbc
    have hna8 : na ≤ 8 := by omega
    have hnb9 : nb ≤ 9 := by omega
    have hstep1 : interpPenta p ≤ penta (na + 1) :=
      interpPenta_le_next na p hna8 (by rw [hnaq]; exact hfp_le) (by rw [hnaq]; exact hfp_lt)
    have hstep2 : penta (na + 1) ≤ penta nb := penta_mono (by omega) hnb9
    have hstep3 : penta nb ≤ interpPenta q := by
      by_cases hb9 : ⌊q⌋ = 9
      · have h9q : (9 : ℚ) ≤ q := by
          rw [hb9] at hfq_le
          exact_mod_cast hfq_le
        have hq9' : q = 9 := le_antisymm hq h9q
        have hnb9' : nb = 9 := by omega
        rw [hq9', hnb9']
        have : interpPenta ((9 : ℕ) : ℚ) = penta 9 := interpPenta_int 9
        rw [show ((9 : ℕ) : ℚ) = (9 : ℚ) by norm_num] at this
        rw [this]
      · have hnb8 : nb ≤ 8 := by omega
        exact interpPenta_ge_base nb q hnb8 (by rw [hnbq]; exact hfq_le)
          (by rw [hnbq]; exact hfq_lt)
    exact le_trans hstep1 (le_trans hstep2 hstep3)

theorem clamp_le_clamp {v1 v2 lo hi : ℚ} (h : v1 ≤ v2) :
    clamp v1 lo hi ≤ clamp v2 lo hi :=
  min_le_min (max_le_max h (le_refl lo)) (le_refl hi)

theorem clamp01_nonneg (v : ℚ) : 0 ≤ clamp v 0 1 :=
  le_min (le_max_right v 0) zero_le_one

theorem clamp01_le_one (v : ℚ) : clamp v 0 1 ≤ 1 := min_le_right _ _

theorem clamp_eq_self {v lo hi : ℚ} (h1 : lo ≤ v) (h2 : v ≤ hi) :
    clamp v lo hi = v := by
  unfold clamp
  rw [max_eq_left h1, min_eq_left h2]

theorem scaledPos_nonneg (x w : ℚ) : 0 ≤ clamp (x / w) 0 1 * 9 :=
  mul_nonneg (clamp01_nonneg _) (by norm_num)

theorem scaledPos_le_nine (x w : ℚ) : clamp (x / w) 0 1 * 9 ≤ 9 := by
  nlinarith [clamp01_le_one (x / w)]

/-- Claim C1: for a positive surface width and `0 ≤ x1 ≤ x2 ≤ w`, the frequency
returned by `getFrequencyForPosition` is monotonically non-decreasing in `x`,
and on every interpolation interval `[k, k+1]` of the scaled index
`clamp(x/width,0,1) * (N-1)` the returned value is exactly the linear
interpolation between the two bracketing pentatonic pitches; adjacent affine
pieces therefore agree at the interval boundaries, so the mapping has no jumps. -/
theorem getFrequencyForPosition_monotone_linear :
    (∀ w x1 x2 : ℚ, 0 < w → 0 ≤ x1 → x1 ≤ x2 → x2 ≤ w →
      getFrequencyForPosition x1 w ≤ getFrequencyForPosition x2 w) ∧
    (∀ w x : ℚ, ∀ k : ℕ, 0 < w → k < 9 →
      (k : ℚ) ≤ clamp (x / w) 0 1 * 9 → clamp (x / w) 0 1 * 9 ≤ (k : ℚ) + 1 →
      getFrequencyForPosition x w =
        penta k + (penta (k + 1) - penta k) * (clamp (x / w) 0 1 * 9 - (k : ℚ))) := by
  constructor
  · intro w x1 x2 hw _ h12 _
    have hw' : ¬ w ≤ 0 := not_le.mpr hw
    rw [getFrequencyForPosition, getFrequencyForPosition, if_neg hw', if_neg hw']
    apply interpPenta_mono (scaledPos_nonneg x1 w) _ (scaledPos_le_nine x2 w)
    have hdiv : x1 / w ≤ x2 / w := by gcongr
    nlinarith [@clamp_le_clamp _ _ 0 1 hdiv]
  · intro w x k hw hk hkp hkp1
    have hw' : ¬ w ≤ 0 := not_le.mpr hw
    rw [getFrequencyForPosition, if_neg hw']
    set P := clamp (x / w) 0 1 * 9 with hP
    rcases lt_or_eq_of_le hkp1 with hlt | heq
    · exact interpPenta_eval k P (by omega) hkp hlt
    · have : P = ((k + 1 : ℕ) : ℚ) := by push_cast; rw [heq]
      rw [this, interpPenta_int (k + 1)]
      push_cast
      ring

/-- Witness for C1 at `w = 100`, `x1 = 10`, `x2 = 50`. -/
theorem getFrequencyForPosition_monotone_linear_witness :
    getFrequencyForPosition 10 100 ≤ getFrequencyForPosition 50 100 :=
  getFrequencyForPosition_monotone_linear.1 100 10 50 (by norm_num) (by norm_num)
    (by norm_num) (by norm_num)

/-- Claim C4: for `0 < height` and `y ∈ [0, height]`, both gain mappers return
exactly `clamp(0.18 + (1 - y/height)*0.5, 0.12, 0.7)` (the `0.68` upper clamp of
the part-002 variant never binds, since the unclamped value never exceeds
`0.68`), and the gain is monotonically non-increasing in `y`. -/
theorem getGainForPosition_spec :
    ∀ y h : ℚ, 0 < h → 0 ≤ y → y ≤ h →
      (getGainForPosition y h = clamp (18/100 + (1 - y / h) * (1/2)) (12/100) (7/10) ∧
       getGainForPositionGrid y h = clamp (18/100 + (1 - y / h) * (1/2)) (12/100) (7/10)) ∧
      (∀ y2 : ℚ, y ≤ y2 → y2 ≤ h →
        getGainForPosition y2 h ≤ getGainForPosition y h ∧
        getGainForPositionGrid y2 h ≤ getGainForPositionGrid y h) := by
  have key : ∀ y h : ℚ, 0 < h → 0 ≤ y → y ≤ h →
      clamp (18/100 + (1 - clamp (y / h) 0 1) * (1/2)) (12/100) (68/100)
        = 18/100 + (1 - y / h) * (1/2) ∧
      clamp (18/100 + (1 - clamp (y / h) 0 1) * (1/2)) (12/100) (7/10)
        = 18/100 + (1 - y / h) * (1/2) := by
    intro y h hh hy hyh
    have h1 : 0 ≤ y / h := div_nonneg hy (le_of_lt hh)
    have h2 : y / h ≤ 1 := (div_le_one hh).mpr hyh
    rw [clamp_eq_self h1 h2]
    constructor <;> (apply clamp_eq_self <;> nlinarith)
  intro y h hh hy hyh
  have hh' : ¬ h ≤ 0 := not_le.mpr hh
  have hk := key y h hh hy hyh
  refine ⟨⟨?_, ?_⟩, ?_⟩
  · rw [getGainForPosition, if_neg hh', hk.1]
    have h1 : 0 ≤ y / h := div_nonneg hy (le_of_lt hh)
    have h2 : y / h ≤ 1 := (div_le_one hh).mpr hyh
    rw [clamp_eq_self (by nlinarith) (by nlinarith)]
  · rw [getGainForPositionGrid, if_neg hh', hk.2]
    have h1 : 0 ≤ y / h := div_nonneg hy (le_of_lt hh)
    have h2 : y / h ≤ 1 := (div_le_one hh).mpr hyh
    rw [clamp_eq_self (by nlinarith) (by nlinarith)]
  · intro y2 hy2 hy2h
    have hk2 := key y2 h hh (le_trans hy hy2) hy2h
    have hdiv : y / h ≤ y2 / h := by gcongr
    constructor
    · rw [getGainForPosition, getGainForPosition, if_neg hh', if_neg hh', hk.1, hk2.1]
      nlinarith
    · rw [getGainForPositionGrid, getGainForPositionGrid, if_neg hh', if_neg hh', hk.2, hk2.2]
      nlinarith

/-- Witness for C4 at `h = 100`, `y = 30`, `y2 = 60`. -/
theorem getGainForPosition_spec_witness :
    getGainForPosition 30 100 = clamp (18/100 + (1 - 30 / 100) * (1/2)) (12/100) (7/10) ∧
    getGainForPosition 60 100 ≤ getGainForPosition 30 100 :=
  ⟨((getGainForPosition_spec 30 100 (by norm_num) (by norm_num) (by norm_num)).1).1,
   (((getGainForPosition_spec 30 100 (by norm_num) (by norm_num) (by norm_num)).2)
      60 (by norm_num) (by norm_num)).1⟩

/-- Claim C10: for a non-positive surface width the frequency mapper does not
divide by the width and instead returns the first pentatonic table entry,
`261.63 Hz`, for every `x`. -/
theorem getFrequencyForPosition_degenerate_width :
    ∀ x width : ℚ, width ≤ 0 →
      getFrequencyForPosition x width = penta 0 ∧
      getFrequencyForPosition x width = 26163/100 := by
  intro x w hw
  rw [getFrequencyForPosition, if_pos hw]
  exact ⟨rfl, by norm_num [penta, PENTATONIC_FREQUENCIES]⟩

/-- Witness for C10 at `x = 5`, `width = 0`. -/
theorem getFrequencyForPosition_degenerate_width_witness :
    getFrequencyForPosition 5 0 = 26163/100 :=
  (getFrequencyForPosition_degenerate_width 5 0 (by norm_num)).2

/-! ## The gesture-driven App (part 002) as a transition system

Pointer state, voice lifecycle, gesture metadata and the RainbowField
emitter map are modelled faithfully after the handlers in `App.tsx`
(part 002) together with the `RainbowField` class (part 005).  Audio
parameters are recorded as their scheduled target values; `Math.hypot`
is carried abstractly in `Env` since only the accumulated-distance field
it feeds is ever compared against a threshold. -/

/-- Oscillator waveform (`OscillatorType`). -/
inductive OscWave
  | sine | square | sawtooth | triangle | custom
deriving DecidableEq

/-- The two sustained instruments of part 002. -/
inductive InstrumentType
  | lead | pad
deriving DecidableEq

/-- A live `Voice`: the scheduled target parameters of its node chain. -/
structure Voice where
  oscType : OscWave
  frequency : ℚ
  gain : ℚ
  filterFreq : ℚ
  filterQ : ℚ
  pan : ℚ
  instrument : InstrumentType
deriving DecidableEq

/-- `PointerMeta` from part 002. -/
structure PointerMeta where
  startX : ℚ
  startY : ℚ
  lastX : ℚ
  lastY : ℚ
  totalDistance : ℚ
  startTime : ℚ
  instrumentLocked : Bool
  triggeredShimmer : Bool
deriving DecidableEq

/-- A rendered touch point (colors are palette indices, `id % 8`). -/
structure TouchPoint where
  x : ℚ
  y : ℚ
  colorIndex : ℕ
deriving DecidableEq

/-- A `RainbowEmitter` (part 005). -/
structure Emitter where
  x : ℚ
  y : ℚ
  frequency : ℚ
  createdAt : ℚ
  lastUpdate : ℚ
  active : Bool
  releaseAt : Option ℚ
  zIndex : ℕ
deriving DecidableEq

/-- A `RainbowPulse` (part 005). -/
structure Pulse where
  x : ℚ
  y : ℚ
  frequency : ℚ
  createdAt : ℚ
  ttl : ℚ
deriving DecidableEq

/-- One-shot sounds emitted by the handlers. -/
inductive Sound
  | chime (x y baseFrequency : ℚ)
  | shimmerArp (x y baseFrequency : ℚ)
deriving DecidableEq

/-- Surface size plus the distance function (`Math.hypot`). -/
structure Env where
  width : ℚ
  height : ℚ
  hypot : ℚ → ℚ → ℚ

/-- The mutable refs of the part-002 `App` plus the emitter field. -/
structure AppState where
  voices : KMap Voice
  meta : KMap PointerMeta
  touch : KMap TouchPoint
  activePointers : List ℕ
  emitters : KMap Emitter
  zCounter : ℕ
  pulses : List Pulse
  releaseTimers : List ℕ
deriving DecidableEq

/-- The state before any pointer event. -/
def initState : AppState :=
  { voices := [], meta := [], touch := [], activePointers := [],
    emitters := [], zCounter := 0, pulses := [], releaseTimers := [] }

/-- `pickColor` (palette index only). -/
def pickColorIndex (id : ℕ) : ℕ := id % 8

/-- `RainbowField.setEmitter`. -/
def setEmitter (s : AppState) (id : ℕ) (x y frequency now : ℚ) : AppState :=
  match getK s.emitters id with
  | some e =>
    let e1 : Emitter :=
      { e with
          x := x
          y := y
          frequency := frequency
          lastUpdate := now }
    let e2 : Emitter :=
      if e1.active then e1
      else { e1 with active := true, releaseAt := none, createdAt := now }
    { s with emitters := setK s.emitters id e2 }
  | none =>
    { s with
      emitters := setK s.emitters id
        { x := x, y := y, frequency := frequency, createdAt := now,
          lastUpdate := now, active := true, releaseAt := none,
          zIndex := s.zCounter + 1 },
      zCounter := s.zCounter + 1 }

/-- `RainbowField.releaseEmitter`. -/
def releaseEmitter (s : AppState) (id : ℕ) (now : ℚ) : AppState :=
  match getK s.emitters id with
  | none => s
  | some e =>
    if e.active then
      { s with
          emitters := (setK s.emitters id
            { e with active := false, releaseAt := some now }) }
    else s

/-- `RainbowField.pulse`. -/
def fieldPulse (s : AppState) (x y frequency ttl now : ℚ) : AppState :=
  { s with
      pulses := (s.pulses ++
        [{ x := x, y := y, frequency := frequency, createdAt := now, ttl := ttl }]) }

/-- `stopVoice`: remove the voice, schedule its release ramp and record the
pending disconnect timer. -/
def stopVoice (s : AppState) (id : ℕ) : AppState :=
  match getK s.voices id with
  | none => s
  | some _ =>
    { s with
        voices := delK s.voices id
        releaseTimers := addId s.releaseTimers id }

/-- `handlePointerDown` (part 002), after the audio context resolves. -/
def handlePointerDown (env : Env) (s : AppState) (id : ℕ) (x y now : ℚ) :
    AppState × List Sound :=
  let s1 : AppState := { s with activePointers := addId s.activePointers id }
  let s2 : AppState := { s1 with releaseTimers := remId s1.releaseTimers id }
  if id ∈ s2.activePointers then
    let frequency := getFrequencyForPosition x env.width
    let voice : Voice :=
      { oscType := .sine, frequency := frequency,
        gain := getGainForPosition y env.height,
        filterFreq := 14000, filterQ := 1/1000,
        pan := getPanForPosition x env.width, instrument := .lead }
    let s3 : AppState := { s2 with voices := setK s2.voices id voice }
    let s4 : AppState := { s3 with
      meta := (setK s3.meta id
        { startX := x, startY := y, lastX := x, lastY := y, totalDistance := 0,
          startTime := now, instrumentLocked := false, triggeredShimmer := false }) }
    let s5 : AppState := { s4 with
      touch := (setK s4.touch id
        { x := x, y := y, colorIndex := pickColorIndex id }) }
    (setEmitter s5 id x y frequency now, [])
  else (s2, [])

/-- `handlePointerMove` (part 002). -/
def handlePointerMove (env : Env) (s : AppState) (id : ℕ) (x y now : ℚ) :
    AppState × List Sound :=
  match getK s.voices id, getK s.meta id with
  | some voice, some meta =>
    let stepDistance := env.hypot (x - meta.lastX) (y - meta.lastY)
    let meta1 : PointerMeta :=
      { meta with
          lastX := x
          lastY := y
          totalDistance := meta.totalDistance + stepDistance }
    let s1 : AppState := { s with meta := setK s.meta id meta1 }
    if meta1.triggeredShimmer = false then
      let absDx := |x - meta1.startX|
      let absDy := |y - meta1.startY|
      if meta1.instrumentLocked = false ∧ 60 < absDx ∧ 60 < absDy ∧
          |absDx - absDy| < 40 then
        let meta2 : PointerMeta := { meta1 with triggeredShimmer := true }
        let s2 : AppState := { s1 with meta := setK s1.meta id meta2 }
        let baseFrequency := getFrequencyForPosition x env.width
        let s3 := stopVoice s2 id
        let s4 := releaseEmitter s3 id now
        let s5 := fieldPulse s4 x y (baseFrequency * (3/2)) 1200 now
        let s6 : AppState := { s5 with
          touch := (setK s5.touch id
            { x := x, y := y, colorIndex := pickColorIndex id }) }
        (s6, [Sound.shimmerArp x y baseFrequency])
      else
        let voiceMeta : Voice × PointerMeta :=
          if meta1.instrumentLocked = false ∧ absDx * (135/100) < absDy ∧
              50 < absDy ∧ voice.instrument ≠ .pad then
            ({ voice with
                  instrument := .pad
                  oscType := .triangle
                  filterFreq := 1200
                  filterQ := 32/10 },
             { meta1 with instrumentLocked := true })
          else if meta1.instrumentLocked = false ∧ 40 < absDx then
            (voice, { meta1 with instrumentLocked := true })
          else (voice, meta1)
        let frequency := getFrequencyForPosition x env.width
        let level := getGainForPosition y env.height
        let voice2 : Voice :=
          if voiceMeta.1.instrument = .pad then
            { voiceMeta.1 with
                frequency := frequency
                gain := clamp (level * (135/100)) (12/100) (78/100)
                filterFreq :=
                  clamp (420 + (1 - clamp (y / env.height) 0 1) * 2000) 360 2600
                filterQ := 42/10 }
          else
            { voiceMeta.1 with
                frequency := frequency
                gain := level
                pan := getPanForPosition x env.width }
        let s2 : AppState := { s1 with
          meta := setK s1.meta id voiceMeta.2
          voices := setK s1.voices id voice2 }
        let s3 := setEmitter s2 id x y frequency now
        let s4 : AppState := { s3 with
          touch := (setK s3.touch id
            { x := x, y := y, colorIndex := pickColorIndex id }) }
        (s4, [])
    else
      ({ s1 with
          touch := (setK s1.touch id
            { x := x, y := y, colorIndex := pickColorIndex id }) }, [])
  | _, _ => (s, [])

/-- `handlePointerUp` (part 002). -/
def handlePointerUp (env : Env) (s : AppState) (id : ℕ) (x y now : ℚ) :
    AppState × List Sound :=
  let s1 : AppState := { s with activePointers := remId s.activePointers id }
  let s2 := stopVoice s1 id
  let s3 : AppState := { s2 with touch := delK s2.touch id }
  let s4 := releaseEmitter s3 id now
  let metaOpt := getK s4.meta id
  let s5 : AppState := { s4 with meta := delK s4.meta id }
  match metaOpt with
  | none => (s5, [])
  | some m =>
    if m.triggeredShimmer then (s5, [])
    else if now - m.startTime < 220 ∧ m.totalDistance < 32 then
      let frequency := getFrequencyForPosition m.startX env.width
      (fieldPulse s5 x y frequency 1100 now, [Sound.chime x y frequency])
    else (s5, [])

/-- `handlePointerCancel` (part 002). -/
def handlePointerCancel (_env : Env) (s : AppState) (id : ℕ) (now : ℚ) :
    AppState × List Sound :=
  let s1 : AppState := { s with activePointers := remId s.activePointers id }
  let s2 := stopVoice s1 id
  let s3 : AppState := { s2 with touch := delK s2.touch id }
  let s4 : AppState := { s3 with meta := delK s3.meta id }
  (releaseEmitter s4 id now, [])

/-- A pointer event with its timestamp. -/
inductive PEvent
  | down (id : ℕ) (x y t : ℚ)
  | move (id : ℕ) (x y t : ℚ)
  | up (id : ℕ) (x y t : ℚ)
  | cancel (id : ℕ) (t : ℚ)

/-- One event step. -/
def step (env : Env) (s : AppState) : PEvent → AppState × List Sound
  | .down id x y t => handlePointerDown env s id x y t
  | .move id x y t => handlePointerMove env s id x y t
  | .up id x y t => handlePointerUp env s id x y t
  | .cancel id t => handlePointerCancel env s id t

/-- Run a whole event stream from the initial state. -/
def run (env : Env) (evs : List PEvent) : AppState :=
  evs.foldl (fun s e => (step env s e).1) initState

/-- Run a sequence of move events `(x, y, t)` for one pointer, collecting all
one-shot sounds they emit. -/
def runMoves (env : Env) (s : AppState) (id : ℕ) :
    List (ℚ × ℚ × ℚ) → AppState × List Sound
  | [] => (s, [])
  | m :: rest =>
    let r := handlePointerMove env s id m.1 m.2.1 m.2.2
    let r2 := runMoves env r.1 id rest
    (r2.1, r.2 ++ r2.2)

/-! ### Elementary facts about the state operations -/

theorem countK_bound_setK {α : Type} {l : KMap α} {j : ℕ} (k : ℕ) (v : α)
    (h : countK l j ≤ 1) : countK (setK l k v) j ≤ 1 := by
  rw [countK_setK]
  split
  · exact le_refl 1
  · exact h

theorem countK_bound_delK {α : Type} {l : KMap α} {j : ℕ} (k : ℕ)
    (h : countK l j ≤ 1) : countK (delK l k) j ≤ 1 :=
  le_trans (countK_delK_le l k j) h

theorem stopVoice_proj (s : AppState) (id : ℕ) :
    (stopVoice s id).meta = s.meta ∧ (stopVoice s id).touch = s.touch ∧
    (stopVoice s id).activePointers = s.activePointers ∧
    (stopVoice s id).emitters = s.emitters ∧
    (stopVoice s id).pulses = s.pulses ∧
    (stopVoice s id).zCounter = s.zCounter := by
  unfold stopVoice
  cases getK s.voices id <;> exact ⟨rfl, rfl, rfl, rfl, rfl, rfl⟩

theorem stopVoice_getK_voices (s : AppState) (id j : ℕ) :
    getK (stopVoice s id).voices j = if j = id then none else getK s.voices j := by
  unfold stopVoice
  rcases hg : getK s.voices id with _ | v
  · simp only [hg]
    split
    · next hj => rw [hj, hg]
    · rfl
  · simp only [hg, getK_delK]

theorem stopVoice_voices_bound (s : AppState) (id j : ℕ)
    (h : countK s.voices j ≤ 1) : countK (stopVoice s id).voices j ≤ 1 := by
  unfold stopVoice
  rcases hg : getK s.voices id with _ | v
  · simpa only [hg] using h
  · simp only [hg]
    exact countK_bound_delK id h

theorem setEmitter_proj (s : AppState) (id : ℕ) (x y f now : ℚ) :
    (setEmitter s id x y f now).voices = s.voices ∧
    (setEmitter s id x y f now).meta = s.meta ∧
    (setEmitter s id x y f now).touch = s.touch ∧
    (setEmitter s id x y f now).activePointers = s.activePointers ∧
    (setEmitter s id x y f now).pulses = s.pulses ∧
    (setEmitter s id x y f now).releaseTimers = s.releaseTimers := by
  unfold setEmitter
  cases getK s.emitters id <;> exact ⟨rfl, rfl, rfl, rfl, rfl, rfl⟩

theorem setEmitter_emitters_bound (s : AppState) (id : ℕ) (x y f now : ℚ)
    (j : ℕ) (h : countK s.emitters j ≤ 1) :
    countK (setEmitter s id x y f now).emitters j ≤ 1 := by
  unfold setEmitter
  rcases hg : getK s.emitters id with _ | e <;> simp only [hg] <;>
    exact countK_bound_setK id _ h

theorem releaseEmitter_proj (s : AppState) (id : ℕ) (now : ℚ) :
    (releaseEmitter s id now).voices = s.voices ∧
    (releaseEmitter s id now).meta = s.meta ∧
    (releaseEmitter s id now).touch = s.touch ∧
    (releaseEmitter s id now).activePointers = s.activePointers ∧
    (releaseEmitter s id now).pulses = s.pulses ∧
    (releaseEmitter s id now).releaseTimers = s.releaseTimers := by
  unfold releaseEmitter
  rcases getK s.emitters id with _ | e
  · exact ⟨rfl, rfl, rfl, rfl, rfl, rfl⟩
  · dsimp only
    split <;> exact ⟨rfl, rfl, rfl, rfl, rfl, rfl⟩

theorem releaseEmitter_emitters_bound (s : AppState) (id : ℕ) (now : ℚ)
    (j : ℕ) (h : countK s.emitters j ≤ 1) :
    countK (releaseEmitter s id now).emitters j ≤ 1 := by
  unfold releaseEmitter
  rcases hg : getK s.emitters id with _ | e
  · simpa only [hg] using h
  · simp only [hg]
    split
    · exact countK_bound_setK id _ h
    · exact h

theorem releaseEmitter_inactive (s : AppState) (id : ℕ) (now : ℚ) :
    ∀ e', getK (releaseEmitter s id now).emitters id = some e' →
      e'.active = false := by
  intro e' he'
  unfold releaseEmitter at he'
  rcases hg : getK s.emitters id with _ | e
  · rw [hg] at he'
    dsimp only at he'
    rw [hg] at he'
    cases he'
  · rw [hg] at he'
    dsimp only at he'
    rcases hact : e.active with _ | _
    · rw [if_neg (by rw [hact]; exact Bool.false_ne_true)] at he'
      rw [hg] at he'
      injection he' with h
      rw [← h]
      exact hact
    · rw [if_pos (by rw [hact])] at he'
      dsimp only at he'
      rw [getK_setK, if_pos rfl] at he'
      injection he' with h
      rw [← h]

/-- Claim C5 invariant: every pointer id owns at most one live `Voice` and at
most one `Emitter`. -/
def atMostOnePerPointer (s : AppState) : Prop :=
  ∀ id, countK s.voices id ≤ 1 ∧ countK s.emitters id ≤ 1

theorem handlePointerDown_bound (env : Env) (s : AppState) (id : ℕ) (x y t : ℚ)
    (h : atMostOnePerPointer s) :
    atMostOnePerPointer (handlePointerDown env s id x y t).1 := by
  intro j
  unfold handlePointerDown
  dsimp only
  split
  · have hv : countK (setK s.voices id
        { oscType := .sine, frequency := getFrequencyForPosition x env.width,
          gain := getGainForPosition y env.height, filterFreq := 14000,
          filterQ := 1/1000, pan := getPanForPosition x env.width,
          instrument := .lead }) j ≤ 1 := countK_bound_setK id _ (h j).1
    constructor
    · rw [(setEmitter_proj _ id x y _ t).1]
      exact hv
    · exact setEmitter_emitters_bound _ id x y _ t j (h j).2
  · exact h j

theorem countK_eq_zero_of_getK_none {α : Type} {l : KMap α} {k : ℕ}
    (h : getK l k = none) : countK l k = 0 := by
  induction l with
  | nil => rfl
  | cons p rest ih =>
    by_cases hpk : p.1 = k
    · simp [getK, hpk] at h
    · simp only [getK, if_neg hpk] at h
      simp [countK, hpk, ih h]

theorem stopVoice_voices_countK (s : AppState) (id j : ℕ) :
    countK (stopVoice s id).voices j = if j = id then 0 else countK s.voices j := by
  unfold stopVoice
  rcases hg : getK s.voices id with _ | v
  · simp only [hg]
    split
    · next hj => rw [hj, countK_eq_zero_of_getK_none hg]
    · rfl
  · simp only [hg, countK_delK]

theorem handlePointerMove_bound (env : Env) (s : AppState) (id : ℕ) (x y t : ℚ)
    (h : atMostOnePerPointer s) :
    atMostOnePerPointer (handlePointerMove env s id x y t).1 := by
  intro j
  unfold handlePointerMove
  rcases hv : getK s.voices id with _ | voice
  · exact h j
  rcases hm : getK s.meta id with _ | meta
  · exact h j
  dsimp only
  split
  · split
    · -- shimmer branch
      constructor
      · simp only [fieldPulse, releaseEmitter_proj, stopVoice_voices_countK]
        split
        · omega
        · exact (h j).1
      · simp only [fieldPulse]
        apply releaseEmitter_emitters_bound
        simp only [stopVoice_proj]
        exact (h j).2
    · -- ordinary drag update
      constructor
      · simp only [setEmitter_proj, countK_setK]
        split
        · omega
        · exact (h j).1
      · apply setEmitter_emitters_bound
        exact (h j).2
  · exact ⟨(h j).1, (h j).2⟩

theorem handlePointerUp_bound (env : Env) (s : AppState) (id : ℕ) (x y t : ℚ)
    (h : atMostOnePerPointer s) :
    atMostOnePerPointer (handlePointerUp env s id x y t).1 := by
  intro j
  unfold handlePointerUp
  dsimp only
  split <;>
    [skip;
     (split <;>
       [skip;
        (split <;> [skip; skip])])] <;>
  · constructor
    · simp only [fieldPulse, releaseEmitter_proj, stopVoice_voices_countK]
      split
      · omega
      · exact (h j).1
    · simp only [fieldPulse]
      apply releaseEmitter_emitters_bound
      simp only [stopVoice_proj]
      exact (h j).2

theorem handlePointerCancel_bound (env : Env) (s : AppState) (id : ℕ) (t : ℚ)
    (h : atMostOnePerPointer s) :
    atMostOnePerPointer (handlePointerCancel env s id t).1 := by
  intro j
  unfold handlePointerCancel
  dsimp only
  constructor
  · simp only [releaseEmitter_proj, stopVoice_voices_countK]
    split
    · omega
    · exact (h j).1
  · apply releaseEmitter_emitters_bound
    simp only [stopVoice_proj]
    exact (h j).2

theorem step_bound (env : Env) (s : AppState) (e : PEvent)
    (h : atMostOnePerPointer s) : atMostOnePerPointer (step env s e).1 := by
  cases e with
  | down id x y t => exact handlePointerDown_bound env s id x y t h
  | move id x y t => exact handlePointerMove_bound env s id x y t h
  | up id x y t => exact handlePointerUp_bound env s id x y t h
  | cancel id t => exact handlePointerCancel_bound env s id t h

/-- Claim C5: in every state reachable from the initial state by an arbitrary
sequence of pointer-down / move / up / cancel events, each pointer id has at
most one `Voice` in the live-voice map and at most one `Emitter` in the
emitter field. -/
theorem run_at_most_one_voice_emitter (env : Env) (evs : List PEvent) :
    atMostOnePerPointer (run env evs) := by
  suffices hgen : ∀ s : AppState, atMostOnePerPointer s →
      atMostOnePerPointer (evs.foldl (fun s' e => (step env s' e).1) s) by
    apply hgen
    intro id
    exact ⟨Nat.le_succ 0, Nat.le_succ 0⟩
  induction evs with
  | nil => intro s hs; exact hs
  | cons e rest ih =>
    intro s hs
    exact ih _ (step_bound env s e hs)

/-! ### Cancellation safety (C6) -/

theorem mem_addId (l : List ℕ) (k : ℕ) : k ∈ addId l k := by
  unfold addId
  split
  · assumption
  · exact List.mem_cons_self k l

theorem stopVoice_of_none {s : AppState} {id : ℕ}
    (h : getK s.voices id = none) : stopVoice s id = s := by
  unfold stopVoice
  rw [h]

theorem releaseEmitter_of_inactive {s : AppState} {id : ℕ} (now : ℚ)
    (h : ∀ e, getK s.emitters id = some e → e.active = false) :
    releaseEmitter s id now = s := by
  unfold releaseEmitter
  rcases hg : getK s.emitters id with _ | e
  · rfl
  · dsimp only
    rw [if_neg]
    rw [h e hg]
    exact Bool.false_ne_true

/-- A pointer id with no state left anywhere: not active, no voice, no
gesture metadata, no touch point and no active emitter. -/
def untracked (s : AppState) (id : ℕ) : Prop :=
  id ∉ s.activePointers ∧ getK s.voices id = none ∧ getK s.meta id = none ∧
  getK s.touch id = none ∧
  (∀ e, getK s.emitters id = some e → e.active = false)

theorem handlePointerCancel_untracked (env : Env) (s : AppState) (id : ℕ)
    (t : ℚ) (h : untracked s id) : handlePointerCancel env s id t = (s, []) := by
  obtain ⟨ha, hv, hm, ht, he⟩ := h
  obtain ⟨sv, sm, st, sa, se, sz, sp, sr⟩ := s
  dsimp only at ha hv hm ht he
  unfold handlePointerCancel stopVoice
  dsimp only
  rw [remId_eq_of_not_mem ha, hv]
  dsimp only
  rw [delK_eq_of_getK_none ht, delK_eq_of_getK_none hm]
  unfold releaseEmitter
  dsimp only
  rcases hge : getK se id with _ | e
  · rfl
  · dsimp only
    rw [if_neg (by rw [he e hge]; exact Bool.false_ne_true)]

theorem handlePointerUp_untracked_src (env : Env) (s : AppState) (id : ℕ)
    (x y t : ℚ) (h : untracked s id) : handlePointerUp env s id x y t = (s, []) := by
  obtain ⟨ha, hv, hm, ht, he⟩ := h
  obtain ⟨sv, sm, st, sa, se, sz, sp, sr⟩ := s
  dsimp only at ha hv hm ht he
  unfold handlePointerUp stopVoice
  dsimp only
  rw [remId_eq_of_not_mem ha, hv]
  dsimp only
  rw [delK_eq_of_getK_none ht]
  unfold releaseEmitter
  dsimp only
  rcases hge : getK se id with _ | e
  · dsimp only
    rw [hm]
    dsimp only
    rw [delK_eq_of_getK_none hm]
  · dsimp only
    rw [if_neg (by rw [he e hge]; exact Bool.false_ne_true)]
    dsimp only
    rw [hm]
    dsimp only
    rw [delK_eq_of_getK_none hm]

theorem handlePointerCancel_effects (env : Env) (s : AppState) (id : ℕ) (t : ℚ) :
    (handlePointerCancel env s id t).2 = [] ∧
    getK (handlePointerCancel env s id t).1.voices id = none ∧
    getK (handlePointerCancel env s id t).1.meta id = none ∧
    getK (handlePointerCancel env s id t).1.touch id = none ∧
    id ∉ (handlePointerCancel env s id t).1.activePointers ∧
    (∀ e, getK (handlePointerCancel env s id t).1.emitters id = some e →
      e.active = false) := by
  refine ⟨rfl, ?_, ?_, ?_, ?_, ?_⟩
  · unfold handlePointerCancel
    dsimp only
    simp only [releaseEmitter_proj, stopVoice_getK_voices, if_pos rfl, if_true]
  · unfold handlePointerCancel
    dsimp only
    simp only [releaseEmitter_proj, getK_delK, if_pos rfl, if_true]
  · unfold handlePointerCancel
    dsimp only
    simp only [releaseEmitter_proj, stopVoice_proj, getK_delK, if_pos rfl, if_true]
  · unfold handlePointerCancel
    dsimp only
    simp only [releaseEmitter_proj, stopVoice_proj]
    exact not_mem_remId s.activePointers id
  · unfold handlePointerCancel
    dsimp only
    exact releaseEmitter_inactive _ id t

theorem handlePointerCancel_makes_untracked (env : Env) (s : AppState)
    (id : ℕ) (t : ℚ) : untracked (handlePointerCancel env s id t).1 id := by
  obtain ⟨-, h1, h2, h3, h4, h5⟩ := handlePointerCancel_effects env s id t
  exact ⟨h4, h1, h2, h3, h5⟩

theorem handlePointerUp_makes_untracked (env : Env) (s : AppState)
    (id : ℕ) (x y t : ℚ) : untracked (handlePointerUp env s id x y t).1 id := by
  unfold handlePointerUp
  dsimp only
  split
  case _ =>
    refine ⟨?_, ?_, ?_, ?_, ?_⟩
    · simp only [releaseEmitter_proj, stopVoice_proj]
      exact not_mem_remId s.activePointers id
    · simp only [releaseEmitter_proj, stopVoice_getK_voices, if_pos rfl, if_true]
    · simp only [getK_delK, if_pos rfl, if_true]
    · simp only [releaseEmitter_proj, stopVoice_proj, getK_delK, if_pos rfl, if_true]
    · exact releaseEmitter_inactive _ id t
  case _ m =>
    split
    case _ =>
      refine ⟨?_, ?_, ?_, ?_, ?_⟩
      · simp only [releaseEmitter_proj, stopVoice_proj]
        exact not_mem_remId s.activePointers id
      · simp only [releaseEmitter_proj, stopVoice_getK_voices, if_pos rfl, if_true]
      · simp only [getK_delK, if_pos rfl, if_true]
      · simp only [releaseEmitter_proj, stopVoice_proj, getK_delK, if_pos rfl, if_true]
      · exact releaseEmitter_inactive _ id t
    case _ =>
      split
      case _ =>
        refine ⟨?_, ?_, ?_, ?_, ?_⟩
        · simp only [fieldPulse, releaseEmitter_proj, stopVoice_proj]
          exact not_mem_remId s.activePointers id
        · simp only [fieldPulse, releaseEmitter_proj, stopVoice_getK_voices, if_pos rfl,
            if_true]
        · simp only [fieldPulse, getK_delK, if_pos rfl, if_true]
        · simp only [fieldPulse, releaseEmitter_proj, stopVoice_proj, getK_delK,
            if_pos rfl, if_true]
        · simp only [fieldPulse]
          exact releaseEmitter_inactive _ id t
      case _ =>
        refine ⟨?_, ?_, ?_, ?_, ?_⟩
        · simp only [releaseEmitter_proj, stopVoice_proj]
          exact not_mem_remId s.activePointers id
        · simp only [releaseEmitter_proj, stopVoice_getK_voices, if_pos rfl, if_true]
        · simp only [getK_delK, if_pos rfl, if_true]
        · simp only [releaseEmitter_proj, stopVoice_proj, getK_delK, if_pos rfl, if_true]
        · exact releaseEmitter_inactive _ id t

/-- Claim C6: pointer-cancel releases the pointer's voice, leaves its emitter
inactive and removes its gesture metadata while emitting no one-shot sound;
cancel on an untracked pointer id is a no-op, and cancel/up compose
idempotently in either order (up-then-cancel, cancel-then-up,
cancel-then-cancel all leave the state unchanged with no sound), so no
orphaned voice can remain. -/
theorem pointer_cancel_safe :
    (∀ env s id t,
      (handlePointerCancel env s id t).2 = [] ∧
      getK (handlePointerCancel env s id t).1.voices id = none ∧
      getK (handlePointerCancel env s id t).1.meta id = none ∧
      (∀ e, getK (handlePointerCancel env s id t).1.emitters id = some e →
        e.active = false)) ∧
    (∀ env s id t, untracked s id → handlePointerCancel env s id t = (s, [])) ∧
    (∀ env s id x y t t2,
      handlePointerCancel env (handlePointerUp env s id x y t).1 id t2 =
        ((handlePointerUp env s id x y t).1, [])) ∧
    (∀ env s id t x y t2,
      handlePointerUp env (handlePointerCancel env s id t).1 id x y t2 =
        ((handlePointerCancel env s id t).1, [])) ∧
    (∀ env s id t t2,
      handlePointerCancel env (handlePointerCancel env s id t).1 id t2 =
        ((handlePointerCancel env s id t).1, [])) := by
  refine ⟨?_, ?_, ?_, ?_, ?_⟩
  · intro env s id t
    obtain ⟨h0, h1, h2, _, _, h5⟩ := handlePointerCancel_effects env s id t
    exact ⟨h0, h1, h2, h5⟩
  · intro env s id t h
    exact handlePointerCancel_untracked env s id t h
  · intro env s id x y t t2
    exact handlePointerCancel_untracked env _ id t2
      (handlePointerUp_makes_untracked env s id x y t)
  · intro env s id t x y t2
    exact handlePointerUp_untracked_src env _ id x y t2
      (handlePointerCancel_makes_untracked env s id t)
  · intro env s id t t2
    exact handlePointerCancel_untracked env _ id t2
      (handlePointerCancel_makes_untracked env s id t)

/-- Witness for C6: cancelling pointer 0 on the initial state is a no-op. -/
theorem pointer_cancel_safe_witness :
    handlePointerCancel { width := 100, height := 100, hypot := fun _ _ => 0 }
      initState 0 0 = (initState, []) :=
  pointer_cancel_safe.2.1 _ initState 0 0
    (by
      refine ⟨?_, rfl, rfl, rfl, ?_⟩
      · simp [initState]
      · intro e he
        simp [initState, getK] at he)

/-! ### Tap and shimmer gestures (C2, C3) -/

theorem handlePointerDown_meta (env : Env) (s : AppState) (id : ℕ) (x y t : ℚ) :
    getK (handlePointerDown env s id x y t).1.meta id =
      some { startX := x, startY := y, lastX := x, lastY := y,
             totalDistance := 0, startTime := t, instrumentLocked := false,
             triggeredShimmer := false } := by
  unfold handlePointerDown
  dsimp only
  rw [if_pos (mem_addId s.activePointers id)]
  dsimp only
  simp only [setEmitter_proj, getK_setK, if_pos rfl, if_true]

theorem handlePointerMove_no_voice (env : Env) (s : AppState) (id : ℕ)
    (x y t : ℚ) (h : getK s.voices id = none) :
    handlePointerMove env s id x y t = (s, []) := by
  unfold handlePointerMove
  rw [h]

theorem runMoves_no_voice (env : Env) (id : ℕ) (moves : List (ℚ × ℚ × ℚ)) :
    ∀ s : AppState, getK s.voices id = none →
      runMoves env s id moves = (s, []) := by
  induction moves with
  | nil => intro s _; rfl
  | cons mv rest ih =>
    intro s h
    simp only [runMoves]
    rw [handlePointerMove_no_voice env s id mv.1 mv.2.1 mv.2.2 h]
    dsimp only
    rw [ih s h]
    rfl

theorem handlePointerMove_meta_track (env : Env) (s : AppState) (id : ℕ)
    (x y t : ℚ) (m : PointerMeta) (hm : getK s.meta id = some m) :
    ((getK (handlePointerMove env s id x y t).1.meta id).map
        (fun m2 => (m2.startX, m2.startTime, m2.triggeredShimmer)) =
      some (m.startX, m.startTime, m.triggeredShimmer) ∧
      (handlePointerMove env s id x y t).2 = []) ∨
    (∃ a b f, (handlePointerMove env s id x y t).2 = [Sound.shimmerArp a b f]) := by
  unfold handlePointerMove
  rcases hv : getK s.voices id with _ | v
  · left
    rw [hm]
    exact ⟨rfl, rfl⟩
  · simp only [hm]
    split
    · split
      · exact Or.inr ⟨x, y, _, rfl⟩
      · left
        constructor
        · simp only [setEmitter_proj]
          rw [getK_setK, if_pos rfl]
          split <;> first | rfl | (split <;> rfl)
        · rfl
    · left
      constructor
      · dsimp only
        rw [getK_setK, if_pos rfl]
        rfl
      · rfl

theorem runMoves_meta_track (env : Env) (id : ℕ) (moves : List (ℚ × ℚ × ℚ)) :
    ∀ (s : AppState) (m : PointerMeta), getK s.meta id = some m →
    (∀ a b f, Sound.shimmerArp a b f ∉ (runMoves env s id moves).2) →
    (getK (runMoves env s id moves).1.meta id).map
        (fun m2 => (m2.startX, m2.startTime, m2.triggeredShimmer)) =
      some (m.startX, m.startTime, m.triggeredShimmer) := by
  induction moves with
  | nil =>
    intro s m hm _
    rw [runMoves, hm]
    rfl
  | cons mv rest ih =>
    intro s m hm hns
    rcases handlePointerMove_meta_track env s id mv.1 mv.2.1 mv.2.2 m hm with
      ⟨hmap, _⟩ | ⟨a, b, f, hout⟩
    · rcases hg1 : getK (handlePointerMove env s id mv.1 mv.2.1 mv.2.2).1.meta id
        with _ | m1
      · rw [hg1] at hmap
        cases hmap
      · rw [hg1] at hmap
        simp only [Option.map_some', Option.some.injEq, Prod.mk.injEq] at hmap
        obtain ⟨hx1, ht1, hf1⟩ := hmap
        have hns2 : ∀ a b f, Sound.shimmerArp a b f ∉
            (runMoves env (handlePointerMove env s id mv.1 mv.2.1 mv.2.2).1
              id rest).2 := by
          intro a b f hmem
          apply hns a b f
          simp only [runMoves]
          exact List.mem_append_right _ hmem
        have := ih _ m1 hg1 hns2
        rw [hx1, ht1, hf1] at this
        simp only [runMoves]
        exact this
    · exfalso
      apply hns a b f
      simp only [runMoves]
      apply List.mem_append_left
      rw [hout]
      exact List.mem_singleton_self _

/-- Claim C2: a gesture consisting of pointer-down, any move sequence that
fires no shimmer, and pointer-up with elapsed time `< 220` and accumulated
move distance `< 32` emits exactly one chime, positioned at the release point
but pitched from the gesture's start X, and leaves no live `Voice` for the
pointer. -/
theorem tap_gesture_single_chime (env : Env) (s0 : AppState) (id : ℕ)
    (sx sy t0 : ℚ) (moves : List (ℚ × ℚ × ℚ)) (x y t1 : ℚ)
    (hdur : t1 - t0 < 220)
    (hshim : ∀ a b f, Sound.shimmerArp a b f ∉
      (runMoves env (handlePointerDown env s0 id sx sy t0).1 id moves).2)
    (hdist : ∀ m, getK (runMoves env (handlePointerDown env s0 id sx sy t0).1
        id moves).1.meta id = some m → m.totalDistance < 32) :
    (handlePointerUp env
        (runMoves env (handlePointerDown env s0 id sx sy t0).1 id moves).1
        id x y t1).2 =
      [Sound.chime x y (getFrequencyForPosition sx env.width)] ∧
    getK (handlePointerUp env
        (runMoves env (handlePointerDown env s0 id sx sy t0).1 id moves).1
        id x y t1).1.voices id = none := by
  have hmap := runMoves_meta_track env id moves _ _
    (handlePointerDown_meta env s0 id sx sy t0) hshim
  dsimp only at hmap
  rcases hget : getK (runMoves env (handlePointerDown env s0 id sx sy t0).1
      id moves).1.meta id with _ | m2
  · rw [hget] at hmap
    cases hmap
  rw [hget] at hmap
  simp only [Option.map_some', Option.some.injEq, Prod.mk.injEq] at hmap
  obtain ⟨hsx, hst, hfl⟩ := hmap
  constructor
  · unfold handlePointerUp
    dsimp only
    simp only [releaseEmitter_proj, stopVoice_proj]
    rw [hget]
    dsimp only
    rw [if_neg (by rw [hfl]; exact Bool.false_ne_true)]
    rw [if_pos ⟨by rw [hst]; exact hdur, hdist m2 hget⟩]
    dsimp only
    rw [hsx]
  · exact (handlePointerUp_makes_untracked env _ id x y t1).2.1

/-- Witness for C2: a 100 ms tap at `(5, 5)` with no moves. -/
theorem tap_gesture_single_chime_witness :
    (handlePointerUp { width := 100, height := 100, hypot := fun _ _ => 0 }
        (runMoves { width := 100, height := 100, hypot := fun _ _ => 0 }
          (handlePointerDown { width := 100, height := 100, hypot := fun _ _ => 0 }
            initState 0 5 5 0).1 0 []).1
        0 5 5 100).2 =
      [Sound.chime 5 5 (getFrequencyForPosition 5 100)] := by
  refine (tap_gesture_single_chime _ initState 0 5 5 0 [] 5 5 100 (by norm_num)
    ?_ ?_).1
  · intro a b f hmem
    simp only [runMoves] at hmem
    exact List.not_mem_nil _ hmem
  · intro m hm
    simp only [runMoves] at hm
    rw [handlePointerDown_meta] at hm
    injection hm with h
    rw [← h]
    norm_num

theorem abs_diff_code_cond {a b : ℚ} (h : |a - b| < 40) :
    abs (abs a - abs b) < 40 :=
  lt_of_le_of_lt (abs_abs_sub_abs_le_abs_sub a b) h

/-- Claim C3: a move event on an unresolved, unlocked gesture whose
displacement from the start satisfies `|dx| > 60`, `|dy| > 60` and
`|dx - dy| < 40` fires the shimmer path exactly once: it emits one shimmer
arpeggio, permanently marks the gesture as resolved, releases the voice, and
every subsequent move of the same pointer leaves the state untouched and
emits nothing, even if the diagonal condition still holds. -/
theorem shimmer_fires_at_most_once (env : Env) (s : AppState) (id : ℕ)
    (x y t : ℚ) (v : Voice) (m : PointerMeta)
    (hv : getK s.voices id = some v) (hm : getK s.meta id = some m)
    (hns : m.triggeredShimmer = false) (hnl : m.instrumentLocked = false)
    (h1 : 60 < |x - m.startX|) (h2 : 60 < |y - m.startY|)
    (h3 : |(x - m.startX) - (y - m.startY)| < 40) :
    (handlePointerMove env s id x y t).2 =
      [Sound.shimmerArp x y (getFrequencyForPosition x env.width)] ∧
    (∃ m2, getK (handlePointerMove env s id x y t).1.meta id = some m2 ∧
      m2.triggeredShimmer = true) ∧
    getK (handlePointerMove env s id x y t).1.voices id = none ∧
    (∀ moves, runMoves env (handlePointerMove env s id x y t).1 id moves =
      ((handlePointerMove env s id x y t).1, [])) := by
  have hvoices : getK (handlePointerMove env s id x y t).1.voices id = none := by
    unfold handlePointerMove
    simp only [hv, hm]
    rw [if_pos hns, if_pos ⟨hnl, h1, h2, abs_diff_code_cond h3⟩]
    simp only [fieldPulse, releaseEmitter_proj, stopVoice_getK_voices, if_pos rfl,
      if_true]
  have hmeta : (getK (handlePointerMove env s id x y t).1.meta id).map
      (fun m2 => m2.triggeredShimmer) = some true := by
    unfold handlePointerMove
    simp only [hv, hm]
    rw [if_pos hns, if_pos ⟨hnl, h1, h2, abs_diff_code_cond h3⟩]
    simp only [fieldPulse, releaseEmitter_proj, stopVoice_proj]
    rw [getK_setK, if_pos rfl]
    rfl
  refine ⟨?_, ?_, hvoices, fun moves => runMoves_no_voice env id moves _ hvoices⟩
  · unfold handlePointerMove
    simp only [hv, hm]
    rw [if_pos hns, if_pos ⟨hnl, h1, h2, abs_diff_code_cond h3⟩]
  · rcases hg : getK (handlePointerMove env s id x y t).1.meta id with _ | m2
    · rw [hg] at hmeta
      cases hmeta
    · rw [hg] at hmeta
      simp only [Option.map_some', Option.some.injEq] at hmeta
      exact ⟨m2, rfl, hmeta⟩

/-- The lead voice used by the C3 witness. -/
def shimmerWitnessVoice : Voice :=
  { oscType := .sine, frequency := 26163/100, gain := 45/100,
    filterFreq := 14000, filterQ := 1/1000, pan := 0, instrument := .lead }

/-- The fresh gesture metadata used by the C3 witness. -/
def shimmerWitnessMeta : PointerMeta :=
  { startX := 0, startY := 0, lastX := 0, lastY := 0, totalDistance := 0,
    startTime := 0, instrumentLocked := false, triggeredShimmer := false }

/-- A concrete state used by the C3 witness: pointer 0 is down at the origin
with a lead voice. -/
def shimmerWitnessState : AppState :=
  { voices := [(0, shimmerWitnessVoice)]
    meta := [(0, shimmerWitnessMeta)]
    touch := []
    activePointers := [0]
    emitters := []
    zCounter := 0
    pulses := []
    releaseTimers := [] }

/-- Witness for C3: a diagonal move to `(100, 80)` fires the shimmer. -/
theorem shimmer_fires_at_most_once_witness :
    (handlePointerMove { width := 100, height := 100, hypot := fun _ _ => 0 }
        shimmerWitnessState 0 100 80 50).2 =
      [Sound.shimmerArp 100 80
        (getFrequencyForPosition 100 100)] := by
  refine (shimmer_fires_at_most_once _ shimmerWitnessState 0 100 80 50
    shimmerWitnessVoice shimmerWitnessMeta rfl rfl rfl rfl ?_ ?_ ?_).1
  · norm_num [shimmerWitnessMeta]
  · norm_num [shimmerWitnessMeta]
  · norm_num [shimmerWitnessMeta]

/-! ## RainbowField emitter fade (C7)

`RainbowField.draw` computes, for an emitter, the per-frame intensity
`active ? 0.85 : 0.85 * clamp(1 - (now - releaseAt) / releaseDuration, 0, 1)`
and deletes the emitter once the intensity drops to `0.001` or below.
`releaseDuration` is `200` in the part-004 field and `680` in part 005. -/

/-- The per-frame intensity computed in `RainbowField.draw`. -/
def emitterIntensity (releaseDuration : ℚ) (e : Emitter) (now : ℚ) : ℚ :=
  if e.active then 85/100
  else 85/100 * clamp (1 - (now - e.releaseAt.getD now) / releaseDuration) 0 1

/-- The deletion test applied by `RainbowField.draw` to each emitter. -/
def drawRemoves (releaseDuration : ℚ) (e : Emitter) (now : ℚ) : Prop :=
  emitterIntensity releaseDuration e now ≤ 1/1000

/-- Claim C7: once an emitter is deactivated at time `r` and not re-activated,
its sampled intensity never increases with time, decays linearly from the
active value `0.85` to zero across the `releaseDuration` window, is exactly
`0` from `releaseDuration` after deactivation onwards, and from that moment
the draw loop's deletion test removes it from the field. -/
theorem emitter_fade_spec (D : ℚ) (e : Emitter) (r : ℚ) (hD : 0 < D)
    (hact : e.active = false) (hrel : e.releaseAt = some r) :
    (∀ n1 n2 : ℚ, n1 ≤ n2 →
      emitterIntensity D e n2 ≤ emitterIntensity D e n1) ∧
    (∀ now : ℚ, r ≤ now → now ≤ r + D →
      emitterIntensity D e now = 85/100 * (1 - (now - r) / D)) ∧
    (∀ now : ℚ, r + D ≤ now →
      emitterIntensity D e now = 0 ∧ drawRemoves D e now) := by
  have hif : ∀ now : ℚ, emitterIntensity D e now =
      85/100 * clamp (1 - (now - r) / D) 0 1 := by
    intro now
    unfold emitterIntensity
    rw [hact, hrel]
    rfl
  refine ⟨?_, ?_, ?_⟩
  · intro n1 n2 h12
    rw [hif, hif]
    have harg : 1 - (n2 - r) / D ≤ 1 - (n1 - r) / D := by
      have : (n1 - r) / D ≤ (n2 - r) / D := by gcongr
      linarith
    have := @clamp_le_clamp _ _ 0 1 harg
    nlinarith
  · intro now hlo hhi
    rw [hif]
    have h0 : 0 ≤ 1 - (now - r) / D := by
      have : (now - r) / D ≤ 1 := by
        rw [div_le_one hD]
        linarith
      linarith
    have h1 : 1 - (now - r) / D ≤ 1 := by
      have : 0 ≤ (now - r) / D := div_nonneg (by linarith) (le_of_lt hD)
      linarith
    rw [clamp_eq_self h0 h1]
  · intro now hnow
    have hz : clamp (1 - (now - r) / D) 0 1 = 0 := by
      have : 1 - (now - r) / D ≤ 0 := by
        have : 1 ≤ (now - r) / D := by
          rw [le_div_iff₀ hD]
          linarith
        linarith
      unfold clamp
      rw [max_eq_right this, min_eq_left (by norm_num : (0 : ℚ) ≤ 1)]
    constructor
    · rw [hif, hz, mul_zero]
    · unfold drawRemoves
      rw [hif, hz, mul_zero]
      norm_num

/-- The released emitter used by the C7 witness. -/
def fadeWitnessEmitter : Emitter :=
  { x := 0, y := 0, frequency := 440, createdAt := 0, lastUpdate := 0,
    active := false, releaseAt := some 100, zIndex := 1 }

/-- Witness for C7 with the part-005 `releaseDuration = 680` at `now = 780`. -/
theorem emitter_fade_spec_witness :
    emitterIntensity 680 fadeWitnessEmitter 780 = 0 ∧
    drawRemoves 680 fadeWitnessEmitter 780 :=
  (emitter_fade_spec 680 fadeWitnessEmitter 100 (by norm_num) rfl rfl).2.2
    780 (by norm_num)

/-! ## Procedural percussive instruments (C8, part 003) -/

/-- `BiquadFilterType`. -/
inductive BiquadKind
  | lowpass | highpass | bandpass | lowshelf | highshelf | peaking | notch
  | allpass
deriving DecidableEq

/-- The one-shot (`tap`) configuration of an instrument. -/
structure TapConfig where
  waveform : OscWave
  octaveOffset : ℚ
  detune : Option ℚ
  attack : ℚ
  decay : ℚ
  sustain : ℚ
  release : ℚ
  gain : ℚ
  filterFrequency : ℚ
  filterQ : ℚ
deriving DecidableEq

/-- An instrument's filter settings. -/
structure FilterConfig where
  type : BiquadKind
  frequency : ℚ
  Q : ℚ
  gain : Option ℚ
deriving DecidableEq

/-- An instrument's vibrato settings. -/
structure VibratoConfig where
  rate : ℚ
  depth : ℚ
deriving DecidableEq

/-- `InstrumentDefinition` from part 003. -/
structure InstrumentDefinition where
  id : String
  waveform : OscWave
  detune : Option ℚ
  attack : ℚ
  sustain : ℚ
  release : ℚ
  filter : FilterConfig
  vibrato : Option VibratoConfig
  tap : TapConfig
deriving DecidableEq

/-- `createPercussiveInstrument` from part 003. -/
def createPercussiveInstrument (baseId : String) (baseFrequency : ℚ)
    (variant : ℕ) : InstrumentDefinition :=
  let waveforms : List OscWave := [.square, .sawtooth, .triangle, .square, .sine]
  let waveform := waveforms.getD (variant % 5) .sine
  let detune : ℚ := ((variant % 5 : ℕ) : ℚ) * 2 - 4
  let filterFrequency :=
    clamp (baseFrequency * (17/10) + (variant : ℚ) * 35) 350 5200
  let filterQ : ℚ := 5 + ((variant % 4 : ℕ) : ℚ) * (11/10)
  let tapFilter := clamp (filterFrequency * (11/10)) 500 5600
  { id := "percussive-" ++ baseId
    waveform := waveform
    detune := some detune
    attack := 8/1000
    sustain := 18/100
    release := 16/100
    filter := { type := .bandpass, frequency := filterFrequency, Q := filterQ,
                gain := none }
    vibrato := none
    tap := { waveform := waveform, octaveOffset := 0,
             detune := some (detune * (3/2)), attack := 3/1000, decay := 12/100,
             sustain := 1/10, release := 14/100,
             gain := 38/100 + ((variant % 3 : ℕ) : ℚ) * (3/100),
             filterFrequency := tapFilter, filterQ := filterQ + 3/2 } }

/-- Claim C8: `createPercussiveInstrument` is deterministic — two invocations
with the same base id, base frequency and variant index produce instrument
definitions equal in every field (waveform, detune, envelope, filter and the
whole tap configuration), so a grid cell's procedurally generated instrument
is reproducible. -/
theorem createPercussiveInstrument_deterministic :
    ∀ (id1 id2 : String) (f1 f2 : ℚ) (v1 v2 : ℕ),
      id1 = id2 → f1 = f2 → v1 = v2 →
      createPercussiveInstrument id1 f1 v1 =
        createPercussiveInstrument id2 f2 v2 ∧
      (createPercussiveInstrument id1 f1 v1).waveform =
        (createPercussiveInstrument id2 f2 v2).waveform ∧
      (createPercussiveInstrument id1 f1 v1).detune =
        (createPercussiveInstrument id2 f2 v2).detune ∧
      (createPercussiveInstrument id1 f1 v1).attack =
        (createPercussiveInstrument id2 f2 v2).attack ∧
      (createPercussiveInstrument id1 f1 v1).sustain =
        (createPercussiveInstrument id2 f2 v2).sustain ∧
      (createPercussiveInstrument id1 f1 v1).release =
        (createPercussiveInstrument id2 f2 v2).release ∧
      (createPercussiveInstrument id1 f1 v1).filter =
        (createPercussiveInstrument id2 f2 v2).filter ∧
      (createPercussiveInstrument id1 f1 v1).tap =
        (createPercussiveInstrument id2 f2 v2).tap := by
  intro id1 id2 f1 f2 v1 v2 h1 h2 h3
  subst h1
  subst h2
  subst h3
  exact ⟨rfl, rfl, rfl, rfl, rfl, rfl, rfl, rfl⟩

/-- Witness for C8 at the first percussive grid cell (`nova-0`, `554.37 Hz`,
variant `0`). -/
theorem createPercussiveInstrument_deterministic_witness :
    createPercussiveInstrument "percnova" (55437/100) 0 =
      createPercussiveInstrument "percnova" (55437/100) 0 :=
  (createPercussiveInstrument_deterministic "percnova" "percnova"
    (55437/100) (55437/100) 0 0 rfl rfl rfl).1

/-! ## Particle caps (C9: `AuroraField` and the inline particle system)

Per-particle random draws are modelled as inputs: a spawn event carries the
already-drawn batch (whose length is the variant's `count` in the real
code), and a frame carries one noise pair per particle index (the
`Math.random() - 0.5` draws of the turbulence term). -/

/-- The four visual flavors of `AuroraField`. -/
inductive AuroraVariant
  | lead | pad | chime | shimmer
deriving DecidableEq

/-- A particle of `AuroraField`. -/
structure AuroraParticle where
  id : ℕ
  x : ℚ
  y : ℚ
  vx : ℚ
  vy : ℚ
  life : ℚ
  ttl : ℚ
  size : ℚ
  growth : ℚ
  r : ℚ
  g : ℚ
  b : ℚ
  alpha : ℚ
  glow : ℚ
  spin : ℚ
deriving DecidableEq

/-- The per-variant spawn/update profile. -/
structure VariantConfig where
  minSpeed : ℚ
  maxSpeed : ℚ
  count : ℕ
  ttl : ℚ × ℚ
  size : ℚ × ℚ
  growth : ℚ × ℚ
  alpha : ℚ × ℚ
  drag : ℚ
  glow : ℚ × ℚ
  spin : ℚ × ℚ
  turbulence : ℚ

/-- `VARIANT_CONFIG` from `AuroraField.ts`. -/
def VARIANT_CONFIG : AuroraVariant → VariantConfig
  | .lead =>
    { minSpeed := 120, maxSpeed := 240, count := 16, ttl := (65/100, 11/10),
      size := (12, 22), growth := (16, 36), alpha := (35/100, 55/100),
      drag := 86/100, glow := (18, 28), spin := (-16/10, 16/10),
      turbulence := 18 }
  | .pad =>
    { minSpeed := 60, maxSpeed := 140, count := 24, ttl := (125/100, 18/10),
      size := (22, 40), growth := (12, 26), alpha := (22/100, 38/100),
      drag := 9/10, glow := (32, 44), spin := (-8/10, 8/10),
      turbulence := 28 }
  | .chime =>
    { minSpeed := 220, maxSpeed := 420, count := 28, ttl := (45/100, 8/10),
      size := (10, 18), growth := (30, 46), alpha := (45/100, 68/100),
      drag := 82/100, glow := (14, 24), spin := (-26/10, 26/10),
      turbulence := 42 }
  | .shimmer =>
    { minSpeed := 140, maxSpeed := 260, count := 34, ttl := (8/10, 14/10),
      size := (16, 28), growth := (18, 34), alpha := (32/100, 52/100),
      drag := 87/100, glow := (26, 40), spin := (-32/10, 32/10),
      turbulence := 56 }

/-- `AuroraField.getVariantForParticle`. -/
def getVariantForParticle (p : AuroraParticle) : AuroraVariant :=
  if 14/10 < p.ttl then .pad
  else if p.ttl < 6/10 ∧ 32 < p.growth then .chime
  else if 2 < p.spin ∨ p.spin < -2 then .shimmer
  else .lead

/-- `AuroraField.spawnBurst`, with the randomized batch supplied as input:
append the new particles, then discard the oldest beyond the hard cap of
`1600` (`splice(0, length - 1600)`). -/
def auroraSpawnBurst (ps batch : List AuroraParticle) : List AuroraParticle :=
  let next := ps ++ batch
  if 1600 < next.length then next.drop (next.length - 1600) else next

/-- One particle step of `AuroraField.update`; `noise` carries the two
`Math.random() - 0.5` draws of the turbulence term. -/
def auroraUpdateParticle (delta : ℚ) (noise : ℚ × ℚ)
    (p : AuroraParticle) : AuroraParticle :=
  let config := VARIANT_CONFIG (getVariantForParticle p)
  let gravity : ℚ := 22
  let turbulence := config.turbulence * delta
  { p with
      life := p.life - delta
      vx := (p.vx + noise.1 * turbulence) * config.drag
      vy := (p.vy + noise.2 * turbulence + gravity * delta) * config.drag
      size := p.size + p.growth * delta
      spin := p.spin * (1 - delta * (2/10)) }

/-- `AuroraField.update`: advance every particle, then cull the expired. -/
def auroraUpdate (delta : ℚ) (noise : ℕ → ℚ × ℚ)
    (ps : List AuroraParticle) : List AuroraParticle :=
  (ps.enum.map (fun ip => auroraUpdateParticle delta (noise ip.1) ip.2)).filter
    (fun p => decide (0 < p.life))

/-- An input event of the `AuroraField` particle system. -/
inductive AuroraEv
  | spawnBurst (variant : AuroraVariant) (batch : List AuroraParticle)
  | frame (delta : ℚ) (noise : ℕ → ℚ × ℚ)

/-- Run the `AuroraField` particle system from its empty initial state. -/
def runAurora (evs : List AuroraEv) : List AuroraParticle :=
  evs.foldl
    (fun ps e =>
      match e with
      | .spawnBurst _ batch => auroraSpawnBurst ps batch
      | .frame delta noise => auroraUpdate delta noise ps)
    []

/-- A particle of the inline variant (part 002, second file). -/
structure Particle240 where
  id : ℕ
  x : ℚ
  y : ℚ
  vx : ℚ
  vy : ℚ
  life : ℚ
  ttl : ℚ
  size : ℚ
  r : ℚ
  g : ℚ
  b : ℚ
  alpha : ℚ
deriving DecidableEq

/-- `spawnParticles` of the inline variant: append, then keep only the last
`240` (`slice(length - 240)`). -/
def spawnParticles (ps batch : List Particle240) : List Particle240 :=
  let next := ps ++ batch
  if 240 < next.length then next.drop (next.length - 240) else next

/-- The inline variant's animation tick: integrate position, decrement life,
cull the expired. -/
def tickParticles (delta : ℚ) (ps : List Particle240) : List Particle240 :=
  (ps.map (fun p =>
    { p with
        life := p.life - delta
        x := p.x + p.vx * delta
        y := p.y + p.vy * delta })).filter (fun p => decide (0 < p.life))

/-- An input event of the inline particle system. -/
inductive ParticleEv
  | spawn (batch : List Particle240)
  | frame (delta : ℚ)

/-- Run the inline particle system from its empty initial state. -/
def runParticles (evs : List ParticleEv) : List Particle240 :=
  evs.foldl
    (fun ps e =>
      match e with
      | .spawn batch => spawnParticles ps batch
      | .frame delta => tickParticles delta ps)
    []

theorem auroraSpawnBurst_length (ps batch : List AuroraParticle) :
    (auroraSpawnBurst ps batch).length ≤
      max 1600 (ps.length + batch.length) := by
  unfold auroraSpawnBurst
  dsimp only
  split
  · rw [List.length_drop]
    omega
  · rw [List.length_append]
    omega

theorem spawnParticles_length (ps batch : List Particle240) :
    (spawnParticles ps batch).length ≤ max 240 (ps.length + batch.length) := by
  unfold spawnParticles
  dsimp only
  split
  · rw [List.length_drop]
    omega
  · rw [List.length_append]
    omega

/-- Claim C9: the particle systems are capped — the `AuroraField` never holds
more than `1600` live particles and the inline system never more than `240`,
under any sequence of spawns and frame updates; when a spawn overflows the
cap the oldest particles (the front of the list) are dropped and the whole
new batch is retained; and every variant's burst size fits under the cap. -/
theorem particle_count_capped :
    (∀ evs : List AuroraEv, (runAurora evs).length ≤ 1600) ∧
    (∀ evs : List ParticleEv, (runParticles evs).length ≤ 240) ∧
    (∀ ps batch : List AuroraParticle, batch.length ≤ 1600 →
      1600 < ps.length + batch.length →
      auroraSpawnBurst ps batch =
        ps.drop (ps.length + batch.length - 1600) ++ batch) ∧
    (∀ ps batch : List Particle240, batch.length ≤ 240 →
      240 < ps.length + batch.length →
      spawnParticles ps batch =
        ps.drop (ps.length + batch.length - 240) ++ batch) ∧
    (∀ v : AuroraVariant, (VARIANT_CONFIG v).count ≤ 1600) := by
  refine ⟨?_, ?_, ?_, ?_, ?_⟩
  · intro evs
    suffices hgen : ∀ ps : List AuroraParticle, ps.length ≤ 1600 →
        (evs.foldl
          (fun ps e =>
            match e with
            | .spawnBurst _ batch => auroraSpawnBurst ps batch
            | .frame delta noise => auroraUpdate delta noise ps)
          ps).length ≤ 1600 by
      exact hgen [] (by simp)
    induction evs with
    | nil => intro ps h; exact h
    | cons e rest ih =>
      intro ps h
      apply ih
      cases e with
      | spawnBurst variant batch =>
        unfold auroraSpawnBurst
        dsimp only
        split
        · rw [List.length_drop]
          omega
        · next hle =>
          rw [List.length_append]
          rw [List.length_append] at hle
          omega
      | frame delta noise =>
        unfold auroraUpdate
        refine le_trans (le_trans (List.length_filter_le _ _) ?_) h
        rw [List.length_map, List.enum_length]
  · intro evs
    suffices hgen : ∀ ps : List Particle240, ps.length ≤ 240 →
        (evs.foldl
          (fun ps e =>
            match e with
            | .spawn batch => spawnParticles ps batch
            | .frame delta => tickParticles delta ps)
          ps).length ≤ 240 by
      exact hgen [] (by simp)
    induction evs with
    | nil => intro ps h; exact h
    | cons e rest ih =>
      intro ps h
      apply ih
      cases e with
      | spawn batch =>
        unfold spawnParticles
        dsimp only
        split
        · rw [List.length_drop]
          omega
        · next hle =>
          rw [List.length_append]
          rw [List.length_append] at hle
          omega
      | frame delta =>
        unfold tickParticles
        refine le_trans (le_trans (List.length_filter_le _ _) ?_) h
        rw [List.length_map]
  · intro ps batch hb hover
    unfold auroraSpawnBurst
    dsimp only
    rw [if_pos (by rw [List.length_append]; exact hover)]
    rw [List.length_append]
    exact List.drop_append_of_le_length (by omega)
  · intro ps batch hb hover
    unfold spawnParticles
    dsimp only
    rw [if_pos (by rw [List.length_append]; exact hover)]
    rw [List.length_append]
    exact List.drop_append_of_le_length (by omega)
  · intro v
    cases v <;> norm_num [VARIANT_CONFIG]

/-- A throwaway concrete particle for the C9 witness. -/
def capWitnessParticle : AuroraParticle :=
  { id := 0, x := 0, y := 0, vx := 0, vy := 0, life := 1, ttl := 1, size := 10,
    growth := 20, r := 255, g := 255, b := 255, alpha := 1/2, glow := 20,
    spin := 0 }

/-- Witness for C9: spawning one particle over a field of `1601` drops the
two oldest and keeps the new one. -/
theorem particle_count_capped_witness :
    auroraSpawnBurst (List.replicate 1601 capWitnessParticle)
        [capWitnessParticle] =
      (List.replicate 1601 capWitnessParticle).drop 2 ++
        [capWitnessParticle] := by
  have h := particle_count_capped.2.2.1 (List.replicate 1601 capWitnessParticle)
    [capWitnessParticle] (by norm_num)
    (by rw [List.length_replicate, List.length_singleton]; norm_num)
  rw [List.length_replicate, List.length_singleton] at h
  norm_num at h
  exact h

end PlayPatch
